import Mathlib

/-!
Verification development for the `specutils` repository
(`src/specutils/spectrum1d.py`).

The module defines one class, `Spectrum1D`, a free function `merge_meta`,
and a decorator `spec_operation` used by the arithmetic operator
`Spectrum1D.__add__`.  We shallowly embed the data model and the
operations below:

* Python dicts (the `meta` mappings) are embedded as association lists
  `List (String × α)` with unique keys; `dict.update`, `del` and key
  views become the list operations `dictUpdate`, `delKey`, `keyList`.
* numpy float arrays become `List ℚ` (exact rationals stand in for the
  floating point values; no claim under consideration depends on
  rounding).
* Mutation and aliasing (deep copies, `ndarray.copy()`) are modelled by
  a small explicit store `Store α` of heap cells addressed by `Nat`:
  a deep copy allocates a fresh cell, an in-place update writes a cell.
* Fallible operations return `Except SpecError _`; each Python
  exception kind is one constructor of `SpecError`.
-/

namespace Specutils

/-- The exception kinds raised by the module.  `nameError` models a
Python `NameError` caused by evaluating a variable that is never bound
in the enclosing scope. -/
inductive SpecError where
  | valueError (msg : String)
  | typeError (msg : String)
  | notImplementedError (msg : String)
  | nameError (unboundName : String)
  deriving DecidableEq, Repr

/-! ### Python dict embedding

A dict is an association list with (by well-formedness) pairwise
distinct keys; lookup returns the first binding. -/

/-- `d.viewkeys()` / iteration order of keys. -/
def keyList {α : Type} (d : List (String × α)) : List String :=
  d.map Prod.fst

/-- `d[k]` as an `Option` (`none` when the key is absent). -/
def getVal {α : Type} (d : List (String × α)) (k : String) : Option α :=
  match d with
  | [] => none
  | (k', v) :: rest => if k' = k then some v else getVal rest k

/-- `d[k] = v`: replace the binding in place if the key is present
(Python keeps the original insertion position), append it otherwise. -/
def setKey {α : Type} (d : List (String × α)) (k : String) (v : α) :
    List (String × α) :=
  if (keyList d).contains k then
    d.map (fun p => if p.1 = k then (k, v) else p)
  else
    d ++ [(k, v)]

/-- `d1.update(d2)`: set every binding of `d2` into `d1`, in `d2`'s
iteration order. -/
def dictUpdate {α : Type} (d1 d2 : List (String × α)) : List (String × α) :=
  d2.foldl (fun acc p => setKey acc p.1 p.2) d1

/-- `del d[k]`. -/
def delKey {α : Type} (d : List (String × α)) (k : String) : List (String × α) :=
  d.filter (fun p => decide (p.1 ≠ k))

/-- `meta1.viewkeys() & meta2.viewkeys()`: the duplicate keys, in
`meta1`'s iteration order (Python iterates the set in an unspecified
order; every claim about the duplicates is stated up to membership). -/
def dupKeys {α : Type} (m1 m2 : List (String × α)) : List String :=
  (keyList m1).filter (fun k => (keyList m2).contains k)

/-- Result of `merge_meta`: the merged dict together with the warning
text handed to the logging sink (`none` when no warning is emitted) and
the list of duplicate keys the warning names. -/
structure MergeResult (α : Type) where
  result : List (String × α)
  warnedKeys : List String
  warning : Option String
  deriving DecidableEq, Repr

/-- `merge_meta(meta1, meta2)` (spectrum1d.py lines 23-40): warn about
duplicate keys, start from a deep copy of `meta1`, overlay a deep copy
of `meta2`, then delete every duplicate key from the result.  Deep
copies are value copies here; the aliasing aspect is modelled
separately by `merge_meta_st`. -/
def merge_meta {α : Type} (meta1 meta2 : List (String × α)) : MergeResult α :=
  let duplicates := dupKeys meta1 meta2
  let warning :=
    if duplicates.length > 0 then
      some ("Removing duplicate keys found in meta data: "
            ++ String.intercalate "," duplicates)
    else none
  let new_meta := dictUpdate meta1 meta2
  let new_meta := duplicates.foldl delKey new_meta
  { result := new_meta, warnedKeys := duplicates, warning := warning }

/-! ### A small heap for aliasing claims

`Store α` is a list of cells addressed by their index.  Allocation
appends a cell; `set` overwrites a cell.  This is enough to express the
claims about deep copies: that `merge_meta` leaves its arguments
untouched and that `__add__` hands the result an independently stored
dispersion array. -/

structure Store (α : Type) where
  cells : List α
  deriving DecidableEq, Repr

def Store.get {α : Type} (st : Store α) (a : Nat) : Option α :=
  st.cells[a]?

def Store.getD {α : Type} (st : Store α) (a : Nat) (dflt : α) : α :=
  (st.get a).getD dflt

def Store.alloc {α : Type} (st : Store α) (v : α) : Store α × Nat :=
  (⟨st.cells ++ [v]⟩, st.cells.length)

def Store.set {α : Type} (st : Store α) (a : Nat) (v : α) : Store α :=
  ⟨st.cells.set a v⟩

/-- Store-level `merge_meta(meta1, meta2)`: the two arguments live in
heap cells `a1`, `a2`.  Statement by statement: reading the key views
and computing `duplicates` mutates nothing; `copy.deepcopy(meta1)`
allocates a fresh cell `r`; `new_meta.update(copy.deepcopy(meta2))`
overwrites cell `r` only; each `del new_meta[key]` overwrites cell `r`
only.  Returns `none` when an address dangles. -/
def merge_meta_st {α : Type} (st : Store (List (String × α))) (a1 a2 : Nat) :
    Option (Store (List (String × α)) × Nat × List String × Option String) :=
  match st.get a1, st.get a2 with
  | some meta1, some meta2 =>
    let duplicates := dupKeys meta1 meta2
    let warning :=
      if duplicates.length > 0 then
        some ("Removing duplicate keys found in meta data: "
              ++ String.intercalate "," duplicates)
      else none
    let (st1, r) := st.alloc meta1
    let st2 := st1.set r (dictUpdate (st1.getD r []) meta2)
    let st3 := st2.set r (duplicates.foldl delKey (st2.getD r []))
    some (st3, r, duplicates, warning)
  | _, _ => none

/-! ### The Spectrum1D data model

`Spectrum1D.__init__` forwards `flux`/`error`/`mask`/`meta`/`units` to
the `NDData` base container and stores `dispersion`/`dispersion_unit`
(the `wcs` branch, which derives the dispersion from a coordinate
mapping object, is not exercised by any claim and the constructors
below always take the `wcs is None` branch).  Meta values are embedded
as `String` (they are opaque to every operation considered). -/

structure Spectrum1D where
  flux : List ℚ
  dispersion : List ℚ
  dispersion_unit : Option String
  error : Option (List ℚ)
  mask : Option (List Bool)
  units : Option String
  meta : List (String × String)
  deriving DecidableEq, Repr

/-- The right operand handed to a binary arithmetic operator: another
`Spectrum1D`, a numeric scalar, a text string — `np.isscalar(str)` is
`True` (`str` is in numpy's `ScalarType`), so strings take the same
`elif np.isscalar(operand)` branch as numbers — or any Python value
for which `np.isscalar` is `False` (a list, dict, `None`, an ndarray,
...), represented by the text of its type. -/
inductive Operand where
  | spectrum (s : Spectrum1D)
  | scalar (x : ℚ)
  | str (s : String)
  | other (typeName : String)
  deriving DecidableEq, Repr

/-- `np.isscalar(operand)`: true for numbers and for text strings
(numpy documents `np.isscalar('numpy')` as `True`), false for
container-like values and arrays. -/
def np_isscalar : Operand → Bool
  | .spectrum _ => false
  | .scalar _ => true
  | .str _ => true
  | .other _ => false

/-- `type(operand)` rendered for the unsupported-operand message. -/
def Operand.typeName : Operand → String
  | .spectrum _ => "Spectrum1D"
  | .scalar _ => "float"
  | .str _ => "str"
  | .other t => t

/-- The message of the unsupported-operand `ValueError`
(`"unsupported operand type(s) for operation: %s and %s" % (type(self),
type(operand))`, with the types rendered by name). -/
def unsupportedMsg (t1 t2 : String) : String :=
  "unsupported operand type(s) for operation: " ++ t1 ++ " and " ++ t2

/-- `all(self.dispersion == operand.dispersion)`: numpy element-wise
equality followed by `all`, for arrays of equal length (the only case
the claims quantify over; numpy would reject a broadcast mismatch). -/
def allEq (a b : List ℚ) : Bool :=
  (a.zip b).all (fun p => p.1 == p.2)

/-- The operand flux resolved by `convert_operands`: the other
spectrum's flux array, a numeric scalar, or — since text strings pass
the `np.isscalar` test — a string. -/
inductive OperandFlux where
  | array (xs : List ℚ)
  | scalar (x : ℚ)
  | str (s : String)
  deriving DecidableEq, Repr

/-- `self.flux + operand_flux`: numpy element-wise addition (equal
lengths) or scalar broadcast.  Adding a string scalar to a float array
raises a numpy `TypeError` (the exact numpy text varies across
versions; the message below is representative — no claim depends on
it, only on the error kind). -/
def numpyAdd (xs : List ℚ) : OperandFlux → Except SpecError (List ℚ)
  | .array ys => .ok ((xs.zip ys).map (fun p => p.1 + p.2))
  | .scalar y => .ok (xs.map (fun x => x + y))
  | .str _ =>
    .error (.typeError "unsupported operand type(s) for +: ndarray and str")

/-- `convert_operands` from the `spec_operation` decorator
(spectrum1d.py lines 42-63): validate the operand and resolve it to a
`(flux, meta)` pair, or raise.  The `.scalar` and `.str` cases are the
single `elif np.isscalar(operand)` branch of the source (both have
`np.isscalar` true); only `np.isscalar`-false non-spectrum values
reach the `else` ValueError. -/
def convert_operands (self : Spectrum1D) (operand : Operand) :
    Except SpecError (OperandFlux × List (String × String)) :=
  match operand with
  | .spectrum o =>
    if allEq self.dispersion o.dispersion && (self.units == o.units) then
      .ok (.array o.flux, o.meta)
    else
      .error (.valueError
        "Dispersion and units need to match for both Spectrum1D objects")
  | .scalar x => .ok (.scalar x, [])
  | .str s => .ok (.str s, [])
  | .other _ =>
    .error (.valueError (unsupportedMsg "Spectrum1D" operand.typeName))

/-- `Spectrum1D.__add__` (spectrum1d.py lines 182-190), wrapped by
`spec_operation`.  The left operand's dispersion array lives in heap
cell `selfDispAddr` of `st` (so `self.dispersion.copy()` can be
modelled as a fresh allocation); the returned address is the result's
dispersion cell.  The constructor call passes only `flux`, `dispersion`
and `meta`, so the result's `error`, `mask`, `units` and
`dispersion_unit` are all `None`. -/
def spectrum_add (st : Store (List ℚ)) (selfDispAddr : Nat)
    (self : Spectrum1D) (operand : Operand) :
    Except SpecError (Store (List ℚ) × Nat × Spectrum1D) :=
  match convert_operands self operand with
  | .error e => .error e
  | .ok (operand_flux, operand_meta) =>
    match numpyAdd self.flux operand_flux with
    | .error e => .error e
    | .ok new_flux =>
      let new_meta := merge_meta self.meta operand_meta
      let (st', newAddr) := st.alloc (st.getD selfDispAddr [])
      .ok (st', newAddr,
        { flux := new_flux
          dispersion := st'.getD newAddr []
          dispersion_unit := none
          error := none
          mask := none
          units := none
          meta := new_meta.result })

/-! ### Slicing -/

/-- `numpy.searchsorted(a, v)` with the default `side='left'`: on a
sorted array, the first index whose element is not less than `v`
(numpy bisects; on sorted input — the documented precondition — the
result equals this linear characterisation). -/
def searchsorted (a : List ℚ) (v : ℚ) : Nat :=
  match a with
  | [] => 0
  | x :: rest => if x < v then searchsorted rest v + 1 else 0

/-- Clamp the start/stop bounds of a Python slice over a sequence of
length `n` (the `slice.indices` algorithm of the language reference). -/
def sliceBounds (n : Nat) (start? stop? : Option Int) (step : Int) :
    Int × Int :=
  let lower : Int := if step < 0 then -1 else 0
  let upper : Int := if step < 0 then (n : Int) - 1 else (n : Int)
  let start :=
    match start? with
    | none => if step < 0 then upper else lower
    | some s => if s < 0 then max (s + n) lower else min s upper
  let stop :=
    match stop? with
    | none => if step < 0 then lower else upper
    | some s => if s < 0 then max (s + n) lower else min s upper
  (start, stop)

/-- The indices visited by a slice with positive step.  `fuel` only
bounds the recursion; `n + 1` is always enough after clamping. -/
def sliceIdxUp (start stop step : Int) : Nat → List Int
  | 0 => []
  | fuel + 1 =>
    if start < stop then start :: sliceIdxUp (start + step) stop step fuel
    else []

/-- The indices visited by a slice with negative step. -/
def sliceIdxDown (start stop step : Int) : Nat → List Int
  | 0 => []
  | fuel + 1 =>
    if start > stop then start :: sliceIdxDown (start + step) stop step fuel
    else []

/-- The index list selected by `slice(start, stop, step)` over a
sequence of length `n`; `none` models the `ValueError` raised for a
zero step. -/
def pySliceIdx (n : Nat) (start? stop? step? : Option Int) :
    Option (List Int) :=
  let step := step?.getD 1
  if step = 0 then none
  else
    let (start, stop) := sliceBounds n start? stop? step
    some (if step > 0 then sliceIdxUp start stop step (n + 1)
          else sliceIdxDown start stop step (n + 1))

/-- `xs[start:stop:step]` on a numpy array (as a value; views are not
modelled — no claim concerns slice aliasing). -/
def pySlice {α : Type} (xs : List α) (start? stop? step? : Option Int) :
    Option (List α) :=
  (pySliceIdx xs.length start? stop? step?).map
    (fun idxs => idxs.filterMap (fun i => xs[i.toNat]?))

/-- A `start`/`stop` argument of `Spectrum1D.slice`: absent, an integer,
or a (rational, standing for float) dispersion coordinate. -/
inductive SliceArg where
  | none
  | int (i : Int)
  | coord (q : ℚ)
  deriving DecidableEq, Repr

/-- Read a slice argument as a dispersion coordinate (ints are valid
coordinates too). -/
def SliceArg.toCoord : SliceArg → Option ℚ
  | .none => Option.none
  | .int i => some (i : ℚ)
  | .coord q => some q

/-- Read a slice argument as an integer index argument (`none` stays
`none`; a float index would be rejected by numpy, reported here as
failure of the outer `Option`). -/
def SliceArg.toIdx : SliceArg → Option (Option Int)
  | .none => some Option.none
  | .int i => some (some i)
  | .coord _ => Option.none

/-- The tail of `Spectrum1D.slice` (spectrum1d.py lines 167-178): apply
the computed position range to `flux`, `dispersion` and, when present,
`error` and `mask`, and build the result (with `meta` deep-copied).
The `if copy:` guarding this block in the source tests the imported
`copy` module — the method has no `copy` parameter — so the module
object is always truthy and this block always runs; the in-place
`NotImplementedError` branch is unreachable. -/
def Spectrum1D.sliceSel (self : Spectrum1D) (s e st : Option Int) :
    Except SpecError Spectrum1D :=
  match pySlice self.flux s e st, pySlice self.dispersion s e st with
  | some newFlux, some newDisp =>
    let new_error := self.error.map (fun es => (pySlice es s e st).getD [])
    let new_mask := self.mask.map (fun ms => (pySlice ms s e st).getD [])
    .ok { flux := newFlux
          dispersion := newDisp
          dispersion_unit := Option.none
          error := new_error
          mask := new_mask
          units := Option.none
          meta := self.meta }
  | _, _ => .error (.valueError "slice step cannot be zero")

/-- `Spectrum1D.slice(start, stop, step, units)` (spectrum1d.py lines
140-180): turn the bounds into a position range (via `searchsorted`
for dispersion units, directly for index units), then select through
`sliceSel`.  The constructor call passes `flux`, `dispersion`, `error`,
`mask` and a deep copy of `meta`, so the result's `units` and
`dispersion_unit` are `None`. -/
def Spectrum1D.slice (self : Spectrum1D) (start stop : SliceArg)
    (step : Option Int) (units : String) :
    Except SpecError Spectrum1D :=
  if units = "dispersion" then
    if step ≠ Option.none then
      .error (.valueError "step can only be specified for units=pixel")
    else
      match start.toCoord, stop.toCoord with
      | some d0, some d1 =>
        let start_idx := searchsorted self.dispersion d0
        let stop_idx := searchsorted self.dispersion d1
        self.sliceSel (some (start_idx : Int)) (some (stop_idx : Int))
          Option.none
      | _, _ =>
        -- numpy rejects comparing `None` against the dispersion values
        .error (.typeError "searchsorted: invalid bound")
  else if units = "index" then
    match start.toIdx, stop.toIdx with
    | some s, some e => self.sliceSel s e step
    | _, _ => .error (.typeError "slice indices must be integers or None")
  else
    -- quotes around the two alternatives elided from the source text
    .error (.valueError
      "units keyword can only have the values dispersion, index")

/-- A Python value passed as a keyword argument. -/
inductive PyArg where
  | noneVal
  | bool (b : Bool)
  | int (i : Int)
  | rat (q : ℚ)
  | str (s : String)
  deriving DecidableEq, Repr

/-- The formal parameters of `Spectrum1D.slice` (besides `self`).  The
signature has no `copy` parameter. -/
def sliceParams : List String := ["start", "stop", "step", "units"]

def lookupKw (kwargs : List (String × PyArg)) (nm : String) (dflt : PyArg) :
    PyArg :=
  match kwargs.find? (fun p => p.1 = nm) with
  | some p => p.2
  | Option.none => dflt

def PyArg.toSliceArg : PyArg → Option SliceArg
  | .noneVal => some .none
  | .int i => some (.int i)
  | .rat q => some (.coord q)
  | _ => Option.none

def PyArg.toStep : PyArg → Option (Option Int)
  | .noneVal => some Option.none
  | .int i => some (some i)
  | _ => Option.none

def PyArg.toUnits : PyArg → Option String
  | .str s => some s
  | _ => Option.none

/-- Calling `self.slice(...)` with keyword arguments: Python's calling
machinery rejects any keyword that is not a formal parameter with a
`TypeError` before the method body runs; otherwise the parameters take
their defaults (`start=None, stop=None, step=None,
units='dispersion'`). -/
def Spectrum1D.slice_kwcall (self : Spectrum1D)
    (kwargs : List (String × PyArg)) : Except SpecError Spectrum1D :=
  match kwargs.find? (fun p => !(sliceParams.contains p.1)) with
  | some p =>
    .error (.typeError ("slice() got an unexpected keyword argument "
      ++ p.1))
  | Option.none =>
    match (lookupKw kwargs "start" .noneVal).toSliceArg,
          (lookupKw kwargs "stop" .noneVal).toSliceArg,
          (lookupKw kwargs "step" .noneVal).toStep,
          (lookupKw kwargs "units" (.str "dispersion")).toUnits with
    | some s, some e, some st, some u => self.slice s e st u
    | _, _, _, _ => .error (.typeError "invalid argument type")

/-! ### Interpolation -/

/-- The shape of the external `scipy.interpolate.interp1d` collaborator
(curried with its application to the new dispersion): old dispersion,
old flux, kind, bounds_error, fill-value, new dispersion; it may raise
(e.g. a bounds error). -/
def Interp1d : Type :=
  List ℚ → List ℚ → String → Bool → Option ℚ → List ℚ →
    Except SpecError (List ℚ)

/-- `Spectrum1D.interpolate` (spectrum1d.py lines 108-135).
`scipy_available` is the module-level capability flag; `interp1d`
abstracts the external `scipy.interpolate.interp1d` collaborator (its
arguments: old dispersion, old flux, kind, bounds_error, fill-value
present?, new dispersion; it may raise, e.g. a bounds error).

The source is faithfully broken in three places, embedded as the
errors Python raises at those statements:
* scipy absent, `kind='linear'`: `np.interp(new_)` reads the never
  bound name `new_` → `NameError("new_")`;
* scipy present, `copy=True`: the constructor call
  `self.__class__(new_flux, dispersion, error=new_error, ...)`
  evaluates `new_error` first, a name never bound in the method (as
  are `new_mask` and `meta`; `copy.deepcopy(meta)` would moreover call
  `.deepcopy` on the boolean `copy` parameter) → `NameError("new_error")`;
* scipy present, `copy=False`: `NotImplementedError`. -/
def interpolate (scipy_available : Bool)
    (interp1d : Interp1d)
    (self : Spectrum1D) (dispersion : List ℚ) (kind : String)
    (bounds_error : Bool) (fill_value : Option ℚ) (copy : Bool) :
    Except SpecError Spectrum1D :=
  if scipy_available = false then
    if kind ≠ "linear" then
      -- quotes around linear elided from the source text
      .error (.valueError
        "Only linear interpolation is available if scipy is not installed")
    else
      -- np.interp(new_): new_ is never bound
      .error (.nameError "new_")
  else
    match interp1d self.dispersion self.flux kind bounds_error fill_value
        dispersion with
    | .error e => .error e
    | .ok _new_flux =>
      if copy then
        -- self.__class__(new_flux, dispersion, error=new_error, ...):
        -- new_error is never bound
        .error (.nameError "new_error")
      else
        .error (.notImplementedError "Inplace will be implemented soon")

/-! ### Lemmas about the dict embedding -/

theorem keyList_cons {α : Type} (k : String) (v : α) (rest : List (String × α)) :
    keyList ((k, v) :: rest) = k :: keyList rest := rfl

theorem getVal_cons {α : Type} (k' k : String) (v : α) (rest : List (String × α)) :
    getVal ((k', v) :: rest) k = if k' = k then some v else getVal rest k := rfl

theorem delKey_cons {α : Type} (k0 k : String) (v : α) (rest : List (String × α)) :
    delKey ((k0, v) :: rest) k =
      if k0 = k then delKey rest k else (k0, v) :: delKey rest k := by
  by_cases h : k0 = k <;> simp [delKey, List.filter_cons, h]

theorem dictUpdate_cons {α : Type} (d1 : List (String × α)) (k0 : String)
    (v0 : α) (rest : List (String × α)) :
    dictUpdate d1 ((k0, v0) :: rest) = dictUpdate (setKey d1 k0 v0) rest := rfl

theorem not_mem_keyList_cons {α : Type} {k k' : String} {v : α}
    {rest : List (String × α)} (h : k ∉ keyList ((k', v) :: rest)) :
    k' ≠ k ∧ k ∉ keyList rest := by
  rw [keyList_cons, List.mem_cons] at h
  push_neg at h
  exact ⟨fun e => h.1 e.symm, h.2⟩

theorem getVal_eq_none_of_not_mem {α : Type} {d : List (String × α)} {k : String}
    (h : k ∉ keyList d) : getVal d k = none := by
  induction d with
  | nil => rfl
  | cons p rest ih =>
    obtain ⟨k', v⟩ := p
    obtain ⟨h1, h2⟩ := not_mem_keyList_cons h
    rw [getVal_cons, if_neg h1]
    exact ih h2

theorem getVal_isSome_of_mem {α : Type} {d : List (String × α)} {k : String}
    (h : k ∈ keyList d) : ∃ v, getVal d k = some v := by
  induction d with
  | nil => simp [keyList] at h
  | cons p rest ih =>
    obtain ⟨k', v⟩ := p
    by_cases hk : k' = k
    · exact ⟨v, by rw [getVal_cons, if_pos hk]⟩
    · rw [keyList_cons, List.mem_cons] at h
      rcases h with h | h
      · exact absurd h.symm hk
      · obtain ⟨w, hw⟩ := ih h
        exact ⟨w, by rw [getVal_cons, if_neg hk]; exact hw⟩

theorem getVal_map_setEntry_self {α : Type} {d : List (String × α)}
    {k : String} {v : α} (h : k ∈ keyList d) :
    getVal (d.map (fun p => if p.1 = k then (k, v) else p)) k = some v := by
  induction d with
  | nil => simp [keyList] at h
  | cons p rest ih =>
    obtain ⟨k', w⟩ := p
    by_cases hk : k' = k
    · subst hk
      simp [getVal_cons]
    · rw [keyList_cons, List.mem_cons] at h
      have h' : k ∈ keyList rest := by
        rcases h with h | h
        · exact absurd h.symm hk
        · exact h
      have hstep : (if ((k', w) : String × α).1 = k then (k, v) else (k', w))
          = (k', w) := by simp [hk]
      simp only [List.map_cons]
      rw [hstep, getVal_cons, if_neg hk]
      exact ih h'

theorem getVal_map_setEntry_ne {α : Type} {k' k : String} {v : α}
    (hne : k' ≠ k) (d : List (String × α)) :
    getVal (d.map (fun p => if p.1 = k' then (k', v) else p)) k = getVal d k := by
  induction d with
  | nil => rfl
  | cons p rest ih =>
    obtain ⟨k0, w⟩ := p
    simp only [List.map_cons]
    by_cases hk0 : k0 = k'
    · subst hk0
      have hstep : (if ((k0, w) : String × α).1 = k0 then (k0, v) else (k0, w))
          = (k0, v) := by simp
      rw [hstep, getVal_cons, if_neg hne, getVal_cons, if_neg hne]
      exact ih
    · have hstep : (if ((k0, w) : String × α).1 = k' then (k', v) else (k0, w))
          = (k0, w) := by simp [hk0]
      rw [hstep, getVal_cons, getVal_cons]
      by_cases hk : k0 = k
      · rw [if_pos hk, if_pos hk]
      · rw [if_neg hk, if_neg hk]
        exact ih

theorem getVal_append_single_of_not_mem {α : Type} {d : List (String × α)}
    {k : String} {v : α} (h : k ∉ keyList d) :
    getVal (d ++ [(k, v)]) k = some v := by
  induction d with
  | nil => simp [getVal_cons]
  | cons p rest ih =>
    obtain ⟨k', w⟩ := p
    obtain ⟨h1, h2⟩ := not_mem_keyList_cons h
    rw [List.cons_append, getVal_cons, if_neg h1]
    exact ih h2

theorem getVal_append_single_ne {α : Type} {k' k : String} {v : α}
    (hne : k' ≠ k) (d : List (String × α)) :
    getVal (d ++ [(k', v)]) k = getVal d k := by
  induction d with
  | nil =>
    show getVal [(k', v)] k = none
    rw [getVal_cons, if_neg hne]
    rfl
  | cons p rest ih =>
    obtain ⟨k0, w⟩ := p
    rw [List.cons_append, getVal_cons, getVal_cons]
    by_cases hk : k0 = k
    · rw [if_pos hk, if_pos hk]
    · rw [if_neg hk, if_neg hk]
      exact ih

theorem getVal_setKey_self {α : Type} (d : List (String × α)) (k : String)
    (v : α) : getVal (setKey d k v) k = some v := by
  rw [setKey]
  by_cases h : (keyList d).contains k
  · rw [if_pos h]
    exact getVal_map_setEntry_self (by simpa using h)
  · rw [if_neg h]
    exact getVal_append_single_of_not_mem (by simpa using h)

theorem getVal_setKey_ne {α : Type} (d : List (String × α)) {k' k : String}
    (v : α) (hne : k' ≠ k) : getVal (setKey d k' v) k = getVal d k := by
  rw [setKey]
  by_cases h : (keyList d).contains k'
  · rw [if_pos h]
    exact getVal_map_setEntry_ne hne d
  · rw [if_neg h]
    exact getVal_append_single_ne hne d

theorem getVal_dictUpdate_of_not_mem {α : Type} {d2 : List (String × α)}
    {k : String} (h : k ∉ keyList d2) (d1 : List (String × α)) :
    getVal (dictUpdate d1 d2) k = getVal d1 k := by
  induction d2 generalizing d1 with
  | nil => rfl
  | cons p rest ih =>
    obtain ⟨k0, v0⟩ := p
    obtain ⟨h1, h2⟩ := not_mem_keyList_cons h
    rw [dictUpdate_cons, ih h2]
    exact getVal_setKey_ne d1 v0 h1

theorem getVal_dictUpdate_of_getVal {α : Type} {d2 : List (String × α)}
    {k : String} {v : α} (hnd : (keyList d2).Nodup)
    (h : getVal d2 k = some v) (d1 : List (String × α)) :
    getVal (dictUpdate d1 d2) k = some v := by
  induction d2 generalizing d1 with
  | nil => exact absurd h (by simp [getVal])
  | cons p rest ih =>
    obtain ⟨k0, v0⟩ := p
    rw [keyList_cons, List.nodup_cons] at hnd
    rw [dictUpdate_cons]
    by_cases hk : k0 = k
    · subst hk
      rw [getVal_cons, if_pos rfl] at h
      rw [getVal_dictUpdate_of_not_mem hnd.1, getVal_setKey_self, h]
    · rw [getVal_cons, if_neg hk] at h
      exact ih hnd.2 h (setKey d1 k0 v0)

theorem getVal_delKey_ne {α : Type} (d : List (String × α)) {k' k : String}
    (hne : k' ≠ k) : getVal (delKey d k') k = getVal d k := by
  induction d with
  | nil => rfl
  | cons p rest ih =>
    obtain ⟨k0, w⟩ := p
    rw [delKey_cons]
    by_cases hk0 : k0 = k'
    · rw [if_pos hk0, getVal_cons, if_neg (hk0 ▸ hne)]
      exact ih
    · rw [if_neg hk0, getVal_cons, getVal_cons]
      by_cases hk : k0 = k
      · rw [if_pos hk, if_pos hk]
      · rw [if_neg hk, if_neg hk]
        exact ih

theorem getVal_delKey_self {α : Type} (d : List (String × α)) (k : String) :
    getVal (delKey d k) k = none := by
  induction d with
  | nil => rfl
  | cons p rest ih =>
    obtain ⟨k0, w⟩ := p
    rw [delKey_cons]
    by_cases hk0 : k0 = k
    · rw [if_pos hk0]
      exact ih
    · rw [if_neg hk0, getVal_cons, if_neg hk0]
      exact ih

theorem getVal_foldl_delKey_not_mem {α : Type} {ks : List String}
    {d : List (String × α)} {k : String} (h : k ∉ ks) :
    getVal (ks.foldl delKey d) k = getVal d k := by
  induction ks generalizing d with
  | nil => rfl
  | cons k0 rest ih =>
    rw [List.mem_cons] at h
    push_neg at h
    rw [List.foldl_cons, ih h.2]
    exact getVal_delKey_ne d (fun hk => h.1 hk.symm)

theorem getVal_foldl_delKey_mem {α : Type} {ks : List String}
    {d : List (String × α)} {k : String} (h : k ∈ ks) :
    getVal (ks.foldl delKey d) k = none := by
  induction ks generalizing d with
  | nil => simp at h
  | cons k0 rest ih =>
    rw [List.foldl_cons]
    by_cases hrest : k ∈ rest
    · exact ih hrest
    · rcases List.mem_cons.mp h with hk | hk
      · subst hk
        rw [getVal_foldl_delKey_not_mem hrest]
        exact getVal_delKey_self d k
      · exact absurd hk hrest

theorem mem_dupKeys {α : Type} {m1 m2 : List (String × α)} {k : String} :
    k ∈ dupKeys m1 m2 ↔ k ∈ keyList m1 ∧ k ∈ keyList m2 := by
  simp [dupKeys, List.mem_filter]

theorem dupKeys_eq_nil_of_disjoint {α : Type} {m1 m2 : List (String × α)}
    (h : ∀ k, k ∈ keyList m1 → k ∉ keyList m2) : dupKeys m1 m2 = [] := by
  simp only [dupKeys, List.filter_eq_nil_iff]
  intro k hk
  simpa using h k hk

/-! ### Lemmas about the store -/

theorem Store.lt_of_get_some {α : Type} {st : Store α} {a : Nat} {x : α}
    (h : st.get a = some x) : a < st.cells.length := by
  by_contra hlt
  push_neg at hlt
  rw [Store.get, List.getElem?_eq_none hlt] at h
  exact Option.noConfusion h

theorem Store.get_alloc_old {α : Type} (st : Store α) (v : α) {a : Nat}
    (h : a < st.cells.length) : (st.alloc v).1.get a = st.get a := by
  simp [Store.alloc, Store.get, List.getElem?_append, h]

theorem Store.get_alloc_new {α : Type} (st : Store α) (v : α) :
    (st.alloc v).1.get st.cells.length = some v := by
  simp [Store.alloc, Store.get]

theorem Store.get_set_ne {α : Type} (st : Store α) {a b : Nat} (v : α)
    (h : a ≠ b) : (st.set a v).get b = st.get b := by
  simp [Store.set, Store.get, List.getElem?_set_ne h]

theorem Store.get_set_self {α : Type} (st : Store α) {a : Nat} (v : α)
    (h : a < st.cells.length) : (st.set a v).get a = some v := by
  simp [Store.set, Store.get, List.getElem?_set_self h]

/-! ### Lemmas about the arithmetic embedding -/

theorem allEq_self (xs : List ℚ) : allEq xs xs = true := by
  induction xs with
  | nil => rfl
  | cons x rest ih => simpa [allEq, List.zip_cons_cons] using ih

theorem allEq_eq_false {a b : List ℚ} {i : Nat} (hia : i < a.length)
    (hib : i < b.length) (hne : a[i] ≠ b[i]) : allEq a b = false := by
  rw [allEq, List.all_eq_false]
  have hz : i < (a.zip b).length := by
    rw [List.length_zip]; omega
  refine ⟨(a.zip b)[i], List.getElem_mem hz, ?_⟩
  rw [List.getElem_zip]
  simpa using hne

/-! ### Lemmas about searchsorted and slicing -/

theorem searchsorted_cons (x v : ℚ) (rest : List ℚ) :
    searchsorted (x :: rest) v =
      if x < v then searchsorted rest v + 1 else 0 := rfl

theorem searchsorted_le_length (a : List ℚ) (v : ℚ) :
    searchsorted a v ≤ a.length := by
  induction a with
  | nil => exact Nat.le_refl 0
  | cons x rest ih =>
    rw [searchsorted_cons]
    by_cases h : x < v
    · rw [if_pos h]
      simpa using Nat.succ_le_succ ih
    · rw [if_neg h]
      exact Nat.zero_le _

theorem getElem_lt_of_lt_searchsorted {a : List ℚ} {v : ℚ} {i : Nat}
    (h : i < searchsorted a v) (hi : i < a.length) : a[i] < v := by
  induction a generalizing i with
  | nil => simp at hi
  | cons x rest ih =>
    rw [searchsorted_cons] at h
    by_cases hx : x < v
    · rw [if_pos hx] at h
      cases i with
      | zero => simpa using hx
      | succ i' =>
        have h' : i' < searchsorted rest v := Nat.lt_of_succ_lt_succ h
        simpa using ih h' (by simpa using Nat.lt_of_succ_lt_succ hi)
    · rw [if_neg hx] at h
      exact absurd h (Nat.not_lt_zero i)

theorem le_getElem_of_searchsorted_le {a : List ℚ} {v : ℚ}
    (hs : a.Pairwise (· ≤ ·)) {i : Nat} (h : searchsorted a v ≤ i)
    (hi : i < a.length) : v ≤ a[i] := by
  induction a generalizing i with
  | nil => simp at hi
  | cons x rest ih =>
    rw [List.pairwise_cons] at hs
    rw [searchsorted_cons] at h
    by_cases hx : x < v
    · rw [if_pos hx] at h
      cases i with
      | zero => omega
      | succ i' =>
        have h' : searchsorted rest v ≤ i' := Nat.le_of_succ_le_succ h
        simpa using ih hs.2 h' (by simpa using Nat.lt_of_succ_lt_succ hi)
    · push_neg at hx
      cases i with
      | zero => simpa using hx
      | succ i' =>
        have hi' : i' < rest.length := by simpa using Nat.lt_of_succ_lt_succ hi
        have hmem : rest[i'] ∈ rest := List.getElem_mem hi'
        simpa using le_trans hx (hs.1 _ hmem)

theorem sliceIdxUp_filterMap {α : Type} (xs : List α) :
    ∀ (k i fuel : Nat), k ≤ fuel → i + k ≤ xs.length →
      (sliceIdxUp (i : Int) ((i : Int) + (k : Int)) 1 fuel).filterMap
          (fun t => xs[t.toNat]?) = (xs.drop i).take k := by
  intro k
  induction k with
  | zero =>
    intro i fuel _ _
    cases fuel with
    | zero => simp [sliceIdxUp]
    | succ f =>
      rw [sliceIdxUp, if_neg (by omega)]
      simp
  | succ k ih =>
    intro i fuel hfuel hlen
    obtain ⟨f, rfl⟩ : ∃ f, fuel = f + 1 := ⟨fuel - 1, by omega⟩
    rw [sliceIdxUp, if_pos (by omega)]
    rw [List.filterMap_cons]
    have hi : i < xs.length := by omega
    have htn : ((i : Int)).toNat = i := Int.toNat_ofNat i
    rw [htn, List.getElem?_eq_getElem hi]
    have harg : (i : Int) + 1 = ((i + 1 : Nat) : Int) := by push_cast; ring
    have harg2 : (i : Int) + ((k + 1 : Nat) : Int)
        = ((i + 1 : Nat) : Int) + ((k : Nat) : Int) := by push_cast; ring
    rw [harg2, harg, ih (i + 1) f (by omega) (by omega)]
    rw [List.drop_eq_getElem_cons hi, List.take_succ_cons]

theorem pySlice_nat {α : Type} (xs : List α) {i j : Nat} (hij : i ≤ j)
    (hj : j ≤ xs.length) :
    pySlice xs (some (i : Int)) (some (j : Int)) none
      = some ((xs.drop i).take (j - i)) := by
  have hb : sliceBounds xs.length (some (i : Int)) (some (j : Int)) 1
      = ((i : Int), (j : Int)) := by
    simp only [sliceBounds]
    norm_num
    constructor <;> omega
  rw [pySlice, pySliceIdx]
  simp only [Option.getD_none]
  rw [if_neg (by omega : ¬ (1 : Int) = 0), hb]
  rw [if_pos (by omega : (1 : Int) > 0)]
  have hcast : (j : Int) = (i : Int) + ((j - i : Nat) : Int) := by
    omega
  rw [hcast, Option.map_some']
  exact congrArg some
    (sliceIdxUp_filterMap xs (j - i) i (xs.length + 1) (by omega) (by omega))

theorem merge_meta_result {α : Type} (m1 m2 : List (String × α)) :
    (merge_meta m1 m2).result
      = (dupKeys m1 m2).foldl delKey (dictUpdate m1 m2) := rfl

theorem merge_meta_warnedKeys {α : Type} (m1 m2 : List (String × α)) :
    (merge_meta m1 m2).warnedKeys = dupKeys m1 m2 := rfl

theorem merge_meta_warning {α : Type} (m1 m2 : List (String × α)) :
    (merge_meta m1 m2).warning
      = if (dupKeys m1 m2).length > 0 then
          some ("Removing duplicate keys found in meta data: "
                ++ String.intercalate "," (dupKeys m1 m2))
        else none := rfl

/-! ### Sample data for the concrete witnesses -/

def specA : Spectrum1D :=
  { flux := [1, 2, 3, 4]
    dispersion := [10, 20, 30, 40]
    dispersion_unit := some "nm"
    error := some [(1 : ℚ)/10, 2/10, 3/10, 4/10]
    mask := some [false, true, false, true]
    units := some "erg"
    meta := [("object", "m31")] }

def specB : Spectrum1D :=
  { flux := [5, 6, 7, 8]
    dispersion := [10, 20, 30, 40]
    dispersion_unit := some "nm"
    error := none
    mask := none
    units := some "erg"
    meta := [("observer", "me")] }

def specC : Spectrum1D :=
  { flux := [5, 6, 7, 8]
    dispersion := [10, 20, 30, 41]
    dispersion_unit := some "nm"
    error := none
    mask := none
    units := some "erg"
    meta := [] }

/-! ### The claims -/

/-- C2: for all metadata mappings whose key sets have a non-empty
intersection K, `merge_meta(a, b)` returns a mapping containing no key
of K (keys present in both inputs are dropped entirely), and a warning
is emitted listing exactly the keys of K, comma-joined. -/
theorem merge_meta_duplicates_dropped (m1 m2 : List (String × String))
    (hK : ∃ k, k ∈ keyList m1 ∧ k ∈ keyList m2) :
    (∀ k, k ∈ keyList m1 → k ∈ keyList m2 →
      getVal (merge_meta m1 m2).result k = none) ∧
    (∀ k, k ∈ (merge_meta m1 m2).warnedKeys ↔
      (k ∈ keyList m1 ∧ k ∈ keyList m2)) ∧
    (merge_meta m1 m2).warning
      = some ("Removing duplicate keys found in meta data: "
          ++ String.intercalate "," (merge_meta m1 m2).warnedKeys) := by
  obtain ⟨k0, hk01, hk02⟩ := hK
  have hdup : k0 ∈ dupKeys m1 m2 := mem_dupKeys.mpr ⟨hk01, hk02⟩
  refine ⟨?_, ?_, ?_⟩
  · intro k h1 h2
    rw [merge_meta_result]
    exact getVal_foldl_delKey_mem (mem_dupKeys.mpr ⟨h1, h2⟩)
  · intro k
    rw [merge_meta_warnedKeys]
    exact mem_dupKeys
  · rw [merge_meta_warning, merge_meta_warnedKeys,
      if_pos (List.length_pos.mpr (List.ne_nil_of_mem hdup))]

/-- Witness for C2 at a concrete pair of mappings sharing the key
`"a"`. -/
theorem merge_meta_duplicates_dropped_witness :
    getVal (merge_meta [("a", "1"), ("b", "2")]
      [("a", "3"), ("c", "4")]).result "a" = none ∧
    (merge_meta [("a", "1"), ("b", "2")] [("a", "3"), ("c", "4")]).warning
      = some "Removing duplicate keys found in meta data: a" :=
  ⟨(merge_meta_duplicates_dropped [("a", "1"), ("b", "2")]
      [("a", "3"), ("c", "4")] ⟨"a", by decide, by decide⟩).1
      "a" (by decide) (by decide),
   by decide⟩

/-- C9: for all metadata mappings with disjoint key sets,
`merge_meta(a, b)` equals the union of `a` and `b` — every key of `a`
maps to its value in `a`, every key of `b` to its value in `b`, no key
is dropped — and no warning is emitted. -/
theorem merge_meta_disjoint_union (m1 m2 : List (String × String))
    (hnd2 : (keyList m2).Nodup)
    (hdisj : ∀ k, k ∈ keyList m1 → k ∉ keyList m2) :
    (∀ k, k ∈ keyList m1 →
      getVal (merge_meta m1 m2).result k = getVal m1 k) ∧
    (∀ k, k ∈ keyList m2 →
      getVal (merge_meta m1 m2).result k = getVal m2 k) ∧
    (∀ k, k ∉ keyList m1 → k ∉ keyList m2 →
      getVal (merge_meta m1 m2).result k = none) ∧
    (merge_meta m1 m2).warning = none ∧
    (merge_meta m1 m2).warnedKeys = [] := by
  have hdup : dupKeys m1 m2 = [] := dupKeys_eq_nil_of_disjoint hdisj
  refine ⟨?_, ?_, ?_, ?_, ?_⟩
  · intro k hk
    rw [merge_meta_result, hdup, List.foldl_nil]
    exact getVal_dictUpdate_of_not_mem (hdisj k hk) m1
  · intro k hk
    obtain ⟨v, hv⟩ := getVal_isSome_of_mem hk
    rw [merge_meta_result, hdup, List.foldl_nil,
      getVal_dictUpdate_of_getVal hnd2 hv m1, hv]
  · intro k h1 h2
    rw [merge_meta_result, hdup, List.foldl_nil,
      getVal_dictUpdate_of_not_mem h2 m1]
    exact getVal_eq_none_of_not_mem h1
  · rw [merge_meta_warning, hdup]
    rfl
  · rw [merge_meta_warnedKeys, hdup]

/-- Witness for C9 at a concrete pair of disjoint mappings. -/
theorem merge_meta_disjoint_union_witness :
    getVal (merge_meta [("a", "1")] [("b", "2")]).result "a"
        = getVal [("a", "1")] "a" ∧
    getVal (merge_meta [("a", "1")] [("b", "2")]).result "b"
        = getVal [("b", "2")] "b" ∧
    (merge_meta [("a", "1")] [("b", "2")]).warning = none :=
  ⟨(merge_meta_disjoint_union [("a", "1")] [("b", "2")] (by decide)
      (by decide)).1 "a" (by decide),
   (merge_meta_disjoint_union [("a", "1")] [("b", "2")] (by decide)
      (by decide)).2.1 "b" (by decide),
   (merge_meta_disjoint_union [("a", "1")] [("b", "2")] (by decide)
      (by decide)).2.2.2.1⟩

theorem merge_meta_st_eq {α : Type} {st : Store (List (String × α))}
    {a1 a2 : Nat} {m1 m2 : List (String × α)}
    (h1 : st.get a1 = some m1) (h2 : st.get a2 = some m2) :
    merge_meta_st st a1 a2 = some
      (((st.alloc m1).1.set st.cells.length (dictUpdate m1 m2)).set
          st.cells.length
          ((dupKeys m1 m2).foldl delKey (dictUpdate m1 m2)),
       st.cells.length, dupKeys m1 m2, (merge_meta m1 m2).warning) := by
  have e1 : (st.alloc m1).1.getD st.cells.length [] = m1 := by
    rw [Store.getD, Store.get_alloc_new]
    rfl
  have hlt : st.cells.length < (st.alloc m1).1.cells.length := by
    simp [Store.alloc]
  have e2 : ((st.alloc m1).1.set st.cells.length
      (dictUpdate m1 m2)).getD st.cells.length [] = dictUpdate m1 m2 := by
    rw [Store.getD, Store.get_set_self _ _ hlt]
    rfl
  simp only [merge_meta_st, h1, h2, merge_meta_warning]
  rw [show st.alloc m1 = ((st.alloc m1).1, st.cells.length) from rfl]
  rw [e1, e2]

/-- C8: `merge_meta` does not mutate either of its input arguments —
after the call both heap cells hold their pre-call values (the result
lives in a fresh cell, built only from deep copies). -/
theorem merge_meta_no_mutation (st : Store (List (String × String)))
    (a1 a2 : Nat) (m1 m2 : List (String × String))
    (h1 : st.get a1 = some m1) (h2 : st.get a2 = some m2) :
    ∃ st' r, merge_meta_st st a1 a2
        = some (st', r, (merge_meta m1 m2).warnedKeys,
                (merge_meta m1 m2).warning) ∧
      st'.get a1 = some m1 ∧ st'.get a2 = some m2 ∧
      r ≠ a1 ∧ r ≠ a2 ∧
      st'.get r = some (merge_meta m1 m2).result := by
  have ha1 : a1 < st.cells.length := Store.lt_of_get_some h1
  have ha2 : a2 < st.cells.length := Store.lt_of_get_some h2
  have hlt : st.cells.length < (st.alloc m1).1.cells.length := by
    simp [Store.alloc]
  have hlen2 : ((st.alloc m1).1.set st.cells.length
      (dictUpdate m1 m2)).cells.length = (st.alloc m1).1.cells.length := by
    simp [Store.set]
  refine ⟨_, _, by rw [merge_meta_st_eq h1 h2, merge_meta_warnedKeys],
    ?_, ?_, ?_, ?_, ?_⟩
  · rw [Store.get_set_ne _ _ (by omega), Store.get_set_ne _ _ (by omega),
      Store.get_alloc_old _ _ ha1, h1]
  · rw [Store.get_set_ne _ _ (by omega), Store.get_set_ne _ _ (by omega),
      Store.get_alloc_old _ _ ha2, h2]
  · omega
  · omega
  · rw [Store.get_set_self _ _ (by omega), merge_meta_result]

/-- Witness for C8 at a concrete two-cell heap. -/
theorem merge_meta_no_mutation_witness :
    ∃ st' r, merge_meta_st ⟨[[("a", "1")], [("a", "2"), ("b", "3")]]⟩ 0 1
        = some (st', r,
            (merge_meta [("a", "1")] [("a", "2"), ("b", "3")]).warnedKeys,
            (merge_meta [("a", "1")] [("a", "2"), ("b", "3")]).warning) ∧
      st'.get 0 = some [("a", "1")] ∧
      st'.get 1 = some [("a", "2"), ("b", "3")] ∧
      r ≠ 0 ∧ r ≠ 1 ∧
      st'.get r
        = some (merge_meta [("a", "1")] [("a", "2"), ("b", "3")]).result :=
  merge_meta_no_mutation ⟨[[("a", "1")], [("a", "2"), ("b", "3")]]⟩ 0 1
    [("a", "1")] [("a", "2"), ("b", "3")] (by decide) (by decide)

/-- Discriminator: is this error a Python `ValueError`? -/
def SpecError.isValueError : SpecError → Bool
  | .valueError _ => true
  | _ => false

/-- Does this `__add__` outcome consist of a raised `ValueError`? -/
def addRaisesValueError
    (x : Except SpecError (Store (List ℚ) × Nat × Spectrum1D)) : Bool :=
  match x with
  | .error e => e.isValueError
  | .ok _ => false

/-- C7 counterexample: at the claim's own example input — a text
string — the operation does not fail with the coded value error.
`np.isscalar` is `True` for strings, so the string passes operand
conversion through the scalar branch and the failure is the later
numpy `TypeError` from `self.flux + operand_flux`. -/
theorem add_string_operand_counterexample :
    spectrum_add ⟨[]⟩ 0 specA (.str "abc")
      = .error (.typeError
          "unsupported operand type(s) for +: ndarray and str") ∧
    addRaisesValueError (spectrum_add ⟨[]⟩ 0 specA (.str "abc")) = false :=
  ⟨rfl, rfl⟩

/-- C7 (amended): an operand that is neither a `Spectrum1D` nor an
`np.isscalar`-true value (e.g. a list or `None`) fails with the value
error naming both operand types; a text string, however, has
`np.isscalar` true, passes operand conversion as a scalar, and the
operation then fails at `self.flux + operand_flux` with a numpy type
error.  In both cases no result instance is produced. -/
theorem add_unsupported_operand (st : Store (List ℚ)) (addr : Nat)
    (self : Spectrum1D) (t s : String) :
    spectrum_add st addr self (.other t)
      = .error (.valueError
          ("unsupported operand type(s) for operation: Spectrum1D and "
            ++ t)) ∧
    np_isscalar (.str s) = true ∧
    spectrum_add st addr self (.str s)
      = .error (.typeError
          "unsupported operand type(s) for +: ndarray and str") :=
  ⟨rfl, rfl, rfl⟩

/-- C3: adding two `Spectrum1D` instances whose dispersion arrays
differ at some index, or whose units differ, fails with the
dispersion/units `ValueError` and produces no result instance. -/
theorem add_mismatch_error (st : Store (List ℚ)) (addr : Nat)
    (a b : Spectrum1D)
    (_hlen : a.dispersion.length = b.dispersion.length)
    (h : (∃ i, ∃ (hia : i < a.dispersion.length)
            (hib : i < b.dispersion.length),
            a.dispersion[i] ≠ b.dispersion[i])
         ∨ a.units ≠ b.units) :
    spectrum_add st addr a (.spectrum b)
      = .error (.valueError
          "Dispersion and units need to match for both Spectrum1D objects")
      := by
  have hguard : (allEq a.dispersion b.dispersion
      && (a.units == b.units)) = false := by
    rcases h with ⟨i, hia, hib, hne⟩ | hu
    · rw [allEq_eq_false hia hib hne, Bool.false_and]
    · have hb : (a.units == b.units) = false := by
        rw [beq_eq_false_iff_ne]
        exact hu
      rw [hb, Bool.and_false]
  simp only [spectrum_add, convert_operands, hguard, Bool.false_eq_true,
    if_false]

/-- Witness for C3: `specA` and `specC` differ in the last dispersion
sample. -/
theorem add_mismatch_error_witness :
    spectrum_add ⟨[]⟩ 0 specA (.spectrum specC)
      = .error (.valueError
          "Dispersion and units need to match for both Spectrum1D objects")
      :=
  add_mismatch_error ⟨[]⟩ 0 specA specC (by decide)
    (Or.inl ⟨3, by decide, by decide, by decide⟩)

/-- C1: adding two `Spectrum1D` instances with element-wise equal
dispersion and equal units yields a new instance whose flux is the
element-wise sum, whose dispersion is value-equal to the left
operand's but independently stored (mutating the fresh cell does not
change the left operand's array), whose meta is
`merge_meta(left.meta, right.meta)`, and whose error and mask are
absent. -/
theorem add_spectra_correct (st : Store (List ℚ)) (addr : Nat)
    (a b : Spectrum1D)
    (hdisp : a.dispersion = b.dispersion)
    (hunits : a.units = b.units)
    (hflux : a.flux.length = b.flux.length)
    (hst : st.get addr = some a.dispersion) :
    ∃ st' newAddr r,
      spectrum_add st addr a (.spectrum b) = .ok (st', newAddr, r) ∧
      r.flux.length = a.flux.length ∧
      (∀ i (hia : i < a.flux.length) (hib : i < b.flux.length)
          (hir : i < r.flux.length),
        r.flux[i] = a.flux[i] + b.flux[i]) ∧
      r.dispersion = a.dispersion ∧
      r.meta = (merge_meta a.meta b.meta).result ∧
      r.error = none ∧ r.mask = none ∧
      newAddr ≠ addr ∧
      st'.get newAddr = some a.dispersion ∧
      st'.get addr = some a.dispersion ∧
      (∀ v, (st'.set newAddr v).get addr = some a.dispersion) := by
  have haddr : addr < st.cells.length := Store.lt_of_get_some hst
  have hguard : (allEq a.dispersion b.dispersion
      && (a.units == b.units)) = true := by
    rw [hdisp, allEq_self, hunits, Bool.true_and, beq_self_eq_true]
  have hgetD : st.getD addr [] = a.dispersion := by
    rw [Store.getD, hst]
    rfl
  have hnew : (st.alloc a.dispersion).1.getD st.cells.length []
      = a.dispersion := by
    rw [Store.getD, Store.get_alloc_new]
    rfl
  have hstep : spectrum_add st addr a (.spectrum b)
      = .ok ((st.alloc a.dispersion).1, st.cells.length,
          { flux := (a.flux.zip b.flux).map (fun p => p.1 + p.2)
            dispersion := a.dispersion
            dispersion_unit := none
            error := none
            mask := none
            units := none
            meta := (merge_meta a.meta b.meta).result }) := by
    simp only [spectrum_add, convert_operands, hguard, if_true, numpyAdd,
      hgetD]
    rw [show st.alloc a.dispersion
        = ((st.alloc a.dispersion).1, st.cells.length) from rfl]
    rw [hnew]
  refine ⟨_, _, _, hstep, ?_, ?_, rfl, rfl, rfl, rfl, by omega, ?_, ?_, ?_⟩
  · simp only [List.length_map, List.length_zip]
    omega
  · intro i hia hib hir
    rw [List.getElem_map, List.getElem_zip]
  · exact Store.get_alloc_new st a.dispersion
  · rw [Store.get_alloc_old _ _ haddr]
    exact hst
  · intro v
    rw [Store.get_set_ne _ _ (by omega), Store.get_alloc_old _ _ haddr]
    exact hst

/-- Witness for C1: `specA + specB` on a one-cell heap holding
`specA`'s dispersion. -/
theorem add_spectra_correct_witness :
    ∃ st' newAddr r,
      spectrum_add ⟨[[10, 20, 30, 40]]⟩ 0 specA (.spectrum specB)
        = .ok (st', newAddr, r) ∧
      r.dispersion = specA.dispersion ∧
      r.meta = (merge_meta specA.meta specB.meta).result ∧
      r.error = none ∧ r.mask = none ∧
      newAddr ≠ 0 ∧
      (∀ v, (st'.set newAddr v).get 0 = some specA.dispersion) := by
  obtain ⟨st', newAddr, r, h1, _, _, h4, h5, h6, h7, h8, _, _, h11⟩ :=
    add_spectra_correct ⟨[[10, 20, 30, 40]]⟩ 0 specA specB (by decide)
      (by decide) (by decide) (by decide)
  exact ⟨st', newAddr, r, h1, h4, h5, h6, h7, h8, h11⟩

theorem pySlice_some_of_step_one {α : Type} (xs : List α) (a b : Option Int) :
    ∃ ys, pySlice xs a b none = some ys := by
  rw [pySlice, pySliceIdx]
  simp only [Option.getD_none]
  rw [if_neg (by omega : ¬ (1 : Int) = 0)]
  rcases hsb : sliceBounds xs.length a b 1 with ⟨lo, hi⟩
  exact ⟨_, rfl⟩

/-- C4: slicing with `units='index'` and integer bounds
`0 ≤ i < j ≤ n` yields a new spectrum of length `j - i` whose flux,
dispersion and (when present) error and mask are the original's
elements at positions `[i, j)`, with meta carried over unchanged (deep
copy). -/
theorem slice_index_correct (s : Spectrum1D) (i j : Nat)
    (hij : i < j) (hjf : j ≤ s.flux.length) (hjd : j ≤ s.dispersion.length)
    (hje : ∀ es, s.error = some es → j ≤ es.length)
    (hjm : ∀ ms, s.mask = some ms → j ≤ ms.length) :
    ∃ r, s.slice (.int (i : Int)) (.int (j : Int)) none "index" = .ok r ∧
      r.flux = (s.flux.drop i).take (j - i) ∧
      r.flux.length = j - i ∧
      r.dispersion = (s.dispersion.drop i).take (j - i) ∧
      r.error = s.error.map (fun es => (es.drop i).take (j - i)) ∧
      r.mask = s.mask.map (fun ms => (ms.drop i).take (j - i)) ∧
      r.meta = s.meta := by
  have hf := pySlice_nat s.flux (le_of_lt hij) hjf
  have hd := pySlice_nat s.dispersion (le_of_lt hij) hjd
  have hslice : s.slice (.int (i : Int)) (.int (j : Int)) none "index"
      = s.sliceSel (some (i : Int)) (some (j : Int)) none := by
    rw [Spectrum1D.slice, if_neg (by decide), if_pos rfl]
    rfl
  rw [hslice]
  simp only [Spectrum1D.sliceSel, hf, hd]
  refine ⟨_, rfl, rfl, ?_, rfl, ?_, ?_, rfl⟩
  · rw [List.length_take, List.length_drop]
    omega
  · cases he : s.error with
    | none => rfl
    | some es =>
      simp only [Option.map_some']
      rw [pySlice_nat es (le_of_lt hij) (hje es he), Option.getD_some]
  · cases hm : s.mask with
    | none => rfl
    | some ms =>
      simp only [Option.map_some']
      rw [pySlice_nat ms (le_of_lt hij) (hjm ms hm), Option.getD_some]

/-- Witness for C4: `specA.slice(1, 3, units='index')`. -/
theorem slice_index_correct_witness :
    ∃ r, specA.slice (.int 1) (.int 3) none "index" = .ok r ∧
      r.flux = (specA.flux.drop 1).take 2 ∧
      r.flux.length = 2 ∧
      r.meta = specA.meta := by
  obtain ⟨r, h1, h2, h3, _, _, _, h7⟩ :=
    slice_index_correct specA 1 3 (by decide) (by decide) (by decide)
      (by intro es hes; cases hes; decide)
      (by intro ms hms; cases hms; decide)
  exact ⟨r, h1, h2, h3, h7⟩

/-- C5: slicing with `units='dispersion'` between two coordinate
values `d0 < d1` that occur in the (ascending sorted) dispersion array
maps the bounds through a sorted-search insertion-point lookup: the
result's dispersion is non-empty, starts at (or after) `d0`, and every
element is strictly less than `d1`. -/
theorem slice_dispersion_correct (s : Spectrum1D) (d0 d1 : ℚ)
    (hsorted : s.dispersion.Pairwise (· ≤ ·))
    (hd0 : d0 ∈ s.dispersion) (_hd1 : d1 ∈ s.dispersion) (h01 : d0 < d1) :
    ∃ r, s.slice (.coord d0) (.coord d1) none "dispersion" = .ok r ∧
      r.dispersion ≠ [] ∧
      (∀ x ∈ r.dispersion, d0 ≤ x) ∧
      (∀ x ∈ r.dispersion, x < d1) := by
  obtain ⟨idx, hidx, hgetidx⟩ := List.mem_iff_getElem.mp hd0
  have hle1 : searchsorted s.dispersion d1 ≤ s.dispersion.length :=
    searchsorted_le_length _ _
  have hi0le : searchsorted s.dispersion d0 ≤ idx := by
    by_contra hcon
    push_neg at hcon
    have hlt := getElem_lt_of_lt_searchsorted hcon hidx
    rw [hgetidx] at hlt
    exact lt_irrefl _ hlt
  have hidxlt : idx < searchsorted s.dispersion d1 := by
    by_contra hcon
    push_neg at hcon
    have hge := le_getElem_of_searchsorted_le hsorted hcon hidx
    rw [hgetidx] at hge
    exact absurd h01 (not_lt.mpr hge)
  have h0lt1 : searchsorted s.dispersion d0 < searchsorted s.dispersion d1 :=
    lt_of_le_of_lt hi0le hidxlt
  have hd := pySlice_nat s.dispersion (le_of_lt h0lt1) hle1
  obtain ⟨fl, hfl⟩ := pySlice_some_of_step_one s.flux
    (some (searchsorted s.dispersion d0 : Int))
    (some (searchsorted s.dispersion d1 : Int))
  have hslice : s.slice (.coord d0) (.coord d1) none "dispersion"
      = s.sliceSel (some (searchsorted s.dispersion d0 : Int))
          (some (searchsorted s.dispersion d1 : Int)) none := by
    rw [Spectrum1D.slice, if_pos rfl, if_neg (by simp)]
    rfl
  rw [hslice]
  simp only [Spectrum1D.sliceSel, hfl, hd]
  have hlen : ((s.dispersion.drop (searchsorted s.dispersion d0)).take
      (searchsorted s.dispersion d1 - searchsorted s.dispersion d0)).length
      = searchsorted s.dispersion d1 - searchsorted s.dispersion d0 := by
    rw [List.length_take, List.length_drop]
    omega
  refine ⟨_, rfl, ?_, ?_, ?_⟩
  · intro hnil
    rw [show ((s.dispersion.drop (searchsorted s.dispersion d0)).take
        (searchsorted s.dispersion d1 - searchsorted s.dispersion d0))
        = ([] : List ℚ) from hnil] at hlen
    simp only [List.length_nil] at hlen
    omega
  · intro x hx
    obtain ⟨m, hm, hxm⟩ := List.mem_iff_getElem.mp hx
    simp only [List.getElem_take, List.getElem_drop] at hxm
    have hmb : searchsorted s.dispersion d0 + m < s.dispersion.length := by
      rw [hlen] at hm
      omega
    rw [← hxm]
    exact le_getElem_of_searchsorted_le hsorted (by omega) hmb
  · intro x hx
    obtain ⟨m, hm, hxm⟩ := List.mem_iff_getElem.mp hx
    simp only [List.getElem_take, List.getElem_drop] at hxm
    have hmb : searchsorted s.dispersion d0 + m < s.dispersion.length := by
      rw [hlen] at hm
      omega
    rw [← hxm]
    exact getElem_lt_of_lt_searchsorted (by rw [hlen] at hm; omega) hmb

/-- Witness for C5: `specA.slice(20, 40, units='dispersion')` keeps the
samples at 20 and 30. -/
theorem slice_dispersion_correct_witness :
    ∃ r, specA.slice (.coord 20) (.coord 40) none "dispersion" = .ok r ∧
      r.dispersion ≠ [] ∧
      (∀ x ∈ r.dispersion, (20 : ℚ) ≤ x) ∧
      (∀ x ∈ r.dispersion, x < (40 : ℚ)) :=
  slice_dispersion_correct specA 20 40 (by decide) (by decide) (by decide)
    (by decide)

/-- Discriminator: is this error a Python `NotImplementedError`? -/
def SpecError.isNotImplemented : SpecError → Bool
  | .notImplementedError _ => true
  | _ => false

/-- Does this call outcome consist of a raised `NotImplementedError`? -/
def raisesNotImplemented (x : Except SpecError Spectrum1D) : Bool :=
  match x with
  | .error e => e.isNotImplemented
  | .ok _ => false

theorem raisesNotImplemented_sliceSel (s : Spectrum1D)
    (a b c : Option Int) :
    raisesNotImplemented (s.sliceSel a b c) = false := by
  rw [Spectrum1D.sliceSel]
  cases pySlice s.flux a b c <;> cases pySlice s.dispersion a b c <;> rfl

/-- C6 counterexample: the only way to request a non-copying slice —
passing an explicit `copy=False` keyword — is rejected by the calling
machinery with a `TypeError` (`slice` has no `copy` parameter), not
with the claimed not-implemented error. -/
theorem slice_noncopy_counterexample :
    specA.slice_kwcall [("copy", PyArg.bool false)]
        = .error (.typeError
            "slice() got an unexpected keyword argument copy") ∧
    raisesNotImplemented (specA.slice_kwcall [("copy", PyArg.bool false)])
        = false :=
  ⟨rfl, rfl⟩

/-- C6 (amended): `interpolate(..., copy=False)` fails with the
not-implemented error before any construction (scipy available, the
interpolation call succeeding); `slice` exposes no non-copy mode — its
signature has no `copy` parameter, an explicit `copy=False` keyword is
rejected with a `TypeError` by the calling machinery, and no invocation
of `slice` raises a not-implemented error (the in-place branch is
unreachable). -/
theorem interpolate_noncopy_slice_no_noncopy (s : Spectrum1D) :
    (∀ (interp1d : Interp1d) (dispersion : List ℚ) (kind : String)
        (bounds_error : Bool) (fill_value : Option ℚ) (new_flux : List ℚ),
      interp1d s.dispersion s.flux kind bounds_error fill_value dispersion
          = .ok new_flux →
      interpolate true interp1d s dispersion kind bounds_error fill_value
          false
        = .error (.notImplementedError "Inplace will be implemented soon")) ∧
    (∀ (start stop : SliceArg) (step : Option Int) (units : String),
      raisesNotImplemented (s.slice start stop step units) = false) ∧
    (∀ (v : PyArg) (rest : List (String × PyArg)),
      s.slice_kwcall (("copy", v) :: rest)
        = .error (.typeError
            "slice() got an unexpected keyword argument copy")) := by
  refine ⟨?_, ?_, ?_⟩
  · intro interp1d dispersion kind bounds_error fill_value new_flux h
    rw [interpolate, if_neg (by simp), h]
    rfl
  · intro start stop step units
    rw [Spectrum1D.slice]
    by_cases h1 : units = "dispersion"
    · rw [if_pos h1]
      by_cases h2 : step ≠ Option.none
      · rw [if_pos h2]
        rfl
      · rw [if_neg h2]
        cases hs : start.toCoord <;> cases he : stop.toCoord
        · rfl
        · rfl
        · rfl
        · exact raisesNotImplemented_sliceSel s _ _ _
    · rw [if_neg h1]
      by_cases h2 : units = "index"
      · rw [if_pos h2]
        cases hs : start.toIdx <;> cases he : stop.toIdx
        · rfl
        · rfl
        · rfl
        · exact raisesNotImplemented_sliceSel s _ _ _
      · rw [if_neg h2]
        rfl
  · intro v rest
    rfl

/-- Witness for the amended C6 at a concrete call. -/
theorem interpolate_noncopy_witness :
    interpolate true (fun _ _ _ _ _ _ => .ok []) specA [] "linear" true
        Option.none false
      = .error (.notImplementedError "Inplace will be implemented soon") :=
  (interpolate_noncopy_slice_no_noncopy specA).1
    (fun _ _ _ _ _ _ => .ok []) [] "linear" true Option.none [] rfl

/-- C10: with scipy available and `copy=True` (the only supported
mode), `interpolate` raises before returning — the construction call
evaluates the never-bound name `new_error` (as it would `new_mask` and
`meta`, and `copy.deepcopy` would be attribute access on the boolean
`copy` parameter) — so `interpolate` never successfully returns a new
`Spectrum1D`. -/
theorem interpolate_copy_never_returns (interp1d : Interp1d)
    (s : Spectrum1D) (dispersion : List ℚ) (kind : String)
    (bounds_error : Bool) (fill_value : Option ℚ) :
    (∀ r, interpolate true interp1d s dispersion kind bounds_error
        fill_value true ≠ .ok r) ∧
    (∀ new_flux,
      interp1d s.dispersion s.flux kind bounds_error fill_value dispersion
          = .ok new_flux →
      interpolate true interp1d s dispersion kind bounds_error fill_value
          true = .error (.nameError "new_error")) := by
  constructor
  · intro r hr
    rw [interpolate, if_neg (by simp)] at hr
    cases hoc : interp1d s.dispersion s.flux kind bounds_error fill_value
        dispersion with
    | error e =>
      rw [hoc] at hr
      exact Except.noConfusion hr
    | ok new_flux =>
      rw [hoc] at hr
      exact Except.noConfusion hr
  · intro new_flux h
    rw [interpolate, if_neg (by simp), h]
    rfl

/-- Witness for C10 at a concrete oracle and spectrum. -/
theorem interpolate_copy_never_returns_witness :
    interpolate true (fun _ _ _ _ _ _ => .ok []) specA [] "linear" true
        Option.none true = .error (.nameError "new_error") :=
  (interpolate_copy_never_returns (fun _ _ _ _ _ _ => .ok []) specA []
    "linear" true Option.none).2 [] rfl

end Specutils
